import Mathlib

/-
Shallow embedding of the SolPot Anchor program
(src/anchor/programs/solpot/src/lib.rs).

Modelling conventions:
- u64 / u32 / u16 machine integers are Nat with explicit 2^64 / 2^32
  bounds inside the checked operations (Rust checked_add / checked_sub /
  checked_mul / checked_div);
- i64 timestamps are Int with explicit bounds in checked_add;
- Pubkeys are Nat; PDA bumps and account addresses are plumbing and are
  not modelled;
- the SHA-256 digest (anchor hash) is an abstract parameter
  hashFn : List Char -> List Nat, since the claims only depend on the
  byte-for-byte comparison of digests;
- lamport balances of the involved accounts are passed and returned
  explicitly; the system-program transfer in enter_round moves lamports
  between the two balances and fails when the payer balance is short;
- Anchor account-validation (the constraints and init attributes of the
  Accounts structs) runs before the instruction body; it is modelled by
  leading checks in each function, in the declaration order of the
  corresponding Accounts struct.
-/

deriving instance DecidableEq for Except

namespace SolPot

def U64 : Nat := 2 ^ 64

def U32 : Nat := 2 ^ 32

def I64MAX : Int := 2 ^ 63 - 1

def I64MIN : Int := -(2 ^ 63)

/-- Rust u64.checked_add. -/
def chAdd64 (a b : Nat) : Option Nat :=
  if a + b < U64 then some (a + b) else none

/-- Rust u32.checked_add. -/
def chAdd32 (a b : Nat) : Option Nat :=
  if a + b < U32 then some (a + b) else none

/-- Rust u64.checked_sub. -/
def chSub64 (a b : Nat) : Option Nat :=
  if b ≤ a then some (a - b) else none

/-- Rust u64.checked_mul. -/
def chMul64 (a b : Nat) : Option Nat :=
  if a * b < U64 then some (a * b) else none

/-- Rust u64.checked_div. -/
def chDiv64 (a b : Nat) : Option Nat :=
  if b = 0 then none else some (a / b)

/-- Rust i64.checked_add. -/
def chAddI64 (a b : Int) : Option Int :=
  if I64MIN ≤ a + b ∧ a + b ≤ I64MAX then some (a + b) else none

/-- The SolPotError enum of lib.rs. -/
inductive SolPotError where
  | RoundNotActive
  | RoundExpired
  | RoundNotExpired
  | RoundAlreadyWon
  | AlreadyEntered
  | MaxPlayersReached
  | IncorrectGuess
  | InsufficientFunds
  | Unauthorized
  | InvalidFeeBasisPoints
  | ArithmeticOverflow
  | RoundStillActive
  | NoWinner
  | PotAlreadyDistributed
  | InvalidWordHash
  | EntryFeeMismatch
  | NftAlreadyMinted
  | AlreadyGuessed
  deriving DecidableEq

/-- The GameConfig account (authority, round_count, entry fee, fee bps). -/
structure GameConfig where
  authority : Nat
  round_count : Nat
  entry_fee_lamports : Nat
  fee_basis_points : Nat
  deriving DecidableEq

/-- The Round account of lib.rs (PDA bump and game_config address elided). -/
structure Round where
  id : Nat
  word_hash : List Nat
  is_active : Bool
  winner : Nat
  has_winner : Bool
  pot_lamports : Nat
  pot_distributed : Bool
  nft_minted : Bool
  player_count : Nat
  max_players : Nat
  created_at : Int
  expires_at : Int
  entry_fee_lamports : Nat
  deriving DecidableEq

/-- The PlayerEntry account (round reference modelled by the round id). -/
structure PlayerEntry where
  player : Nat
  round : Nat
  entered_at : Int
  deriving DecidableEq

/-- One Leaderboard entry. -/
structure LeaderboardEntry where
  player : Nat
  wins : Nat
  total_winnings : Nat
  deriving DecidableEq

/-- Leaderboard.MAX_ENTRIES. -/
def MAX_ENTRIES : Nat := 50

/-- Result of initialize_game: fresh config and empty leaderboard. -/
structure InitResult where
  game_config : GameConfig
  leaderboard : List LeaderboardEntry
  deriving DecidableEq

/-- initialize_game: requires fee_basis_points <= 1000, creates the config
with round_count 0 and an empty leaderboard. -/
def initialize_game (authority entry_fee_lamports fee_basis_points : Nat) :
    Except SolPotError InitResult :=
  if 1000 < fee_basis_points then .error .InvalidFeeBasisPoints
  else .ok ⟨⟨authority, 0, entry_fee_lamports, fee_basis_points⟩, []⟩

/-- Result of create_round: updated config and the fresh round. -/
structure CreateResult where
  game_config : GameConfig
  round : Round
  deriving DecidableEq

/-- create_round: initializes the round fields, sets
expires_at = now + duration_seconds by checked i64 addition, and increments
the registry round counter by checked u64 addition. -/
def create_round (gc : GameConfig) (now : Int) (word_hash : List Nat)
    (max_players : Nat) (duration_seconds : Int) :
    Except SolPotError CreateResult :=
  match chAddI64 now duration_seconds with
  | none => .error .ArithmeticOverflow
  | some exp =>
    match chAdd64 gc.round_count 1 with
    | none => .error .ArithmeticOverflow
    | some rc =>
      .ok ⟨{ gc with round_count := rc },
        ⟨gc.round_count, word_hash, true, 0, false, 0, false, false, 0,
          max_players, now, exp, gc.entry_fee_lamports⟩⟩

/-- Result of enter_round: updated round, updated lamport balances of the
round escrow and the player, and the created PlayerEntry. -/
structure EnterResult where
  round : Round
  roundLamports : Nat
  playerLamports : Nat
  player_entry : PlayerEntry
  deriving DecidableEq

/-- enter_round. `entryExists` models whether the PlayerEntry PDA for
(round, player) already exists: that account is declared `init` in the
EnterRound Accounts struct, so Anchor account validation fails before the
instruction body when it does; the spec treats this storage-allocation
conflict as the error AlreadyEntered. The four require checks follow in
the body order of lib.rs, then the system-program transfer of the entry
fee (which fails when the player balance is short of entry_fee_lamports),
then the checked increments of pot and player_count. -/
def enter_round (round : Round) (entryExists : Bool)
    (roundLamports playerLamports : Nat) (player : Nat) (now : Int) :
    Except SolPotError EnterResult :=
  if entryExists then .error .AlreadyEntered
  else if !round.is_active then .error .RoundNotActive
  else if round.has_winner then .error .RoundAlreadyWon
  else if round.max_players ≤ round.player_count then .error .MaxPlayersReached
  else if round.expires_at ≤ now then .error .RoundExpired
  else if playerLamports < round.entry_fee_lamports then .error .InsufficientFunds
  else
    match chAdd64 round.pot_lamports round.entry_fee_lamports with
    | none => .error .ArithmeticOverflow
    | some pot1 =>
      match chAdd32 round.player_count 1 with
      | none => .error .ArithmeticOverflow
      | some pc1 =>
        .ok ⟨{ round with pot_lamports := pot1, player_count := pc1 },
          roundLamports + round.entry_fee_lamports,
          playerLamports - round.entry_fee_lamports,
          ⟨player, round.id, now⟩⟩

/-- Result of submit_guess: updated round, the boolean outcome carried by
the GuessResult event, and whether the GuessRecord PDA was created. -/
structure SubmitResult where
  round : Round
  is_correct : Bool
  guess_record_created : Bool
  deriving DecidableEq

/-- submit_guess. Account validation first, in the declaration order of the
SubmitGuess Accounts struct: the PlayerEntry PDA for (round, player) must
exist (membership; its absence is modelled as Unauthorized, the spec's
not-a-member error), and the GuessRecord PDA is `init`, so its prior
existence aborts with the storage-allocation conflict the spec calls
AlreadyGuessed — before any check of the instruction body. The body then
requires is_active, !has_winner, now < expires_at, lowercases the guess
(the Rust String is modelled as its character sequence, to_lowercase as
per-character lowering), hashes it and compares the digest byte-for-byte
with word_hash; on a match it sets winner, has_winner and clears
is_active; it returns success either way, carrying the boolean outcome. -/
def submit_guess (hashFn : List Char → List Nat) (round : Round)
    (playerEntryExists guessRecordExists : Bool) (player : Nat) (now : Int)
    (guess : List Char) : Except SolPotError SubmitResult :=
  if !playerEntryExists then .error .Unauthorized
  else if guessRecordExists then .error .AlreadyGuessed
  else if !round.is_active then .error .RoundNotActive
  else if round.has_winner then .error .RoundAlreadyWon
  else if round.expires_at ≤ now then .error .RoundExpired
  else
    let normalized := guess.map Char.toLower
    let guess_hash := hashFn normalized
    let is_correct : Bool := decide (guess_hash = round.word_hash)
    if is_correct then
      .ok ⟨{ round with winner := player, has_winner := true, is_active := false },
        true, true⟩
    else
      .ok ⟨round, false, true⟩

/-- First pass of the leaderboard update of distribute_pot: the Rust
iter_mut().find mutates the first entry whose player equals the winner,
with checked increments of wins and total_winnings. -/
def creditFirst (entries : List LeaderboardEntry) (winner_key winner_amount : Nat) :
    Except SolPotError (List LeaderboardEntry) :=
  match entries with
  | [] => .ok []
  | e :: rest =>
    if e.player = winner_key then
      match chAdd32 e.wins 1, chAdd64 e.total_winnings winner_amount with
      | some w1, some t1 => .ok ({ e with wins := w1, total_winnings := t1 } :: rest)
      | _, _ => .error .ArithmeticOverflow
    else
      match creditFirst rest winner_key winner_amount with
      | .ok rest1 => .ok (e :: rest1)
      | .error err => .error err

/-- Whether some leaderboard entry belongs to the given player. -/
def containsPlayer (entries : List LeaderboardEntry) (winner_key : Nat) : Bool :=
  entries.any (fun e => e.player == winner_key)

/-- The Rust entries.sort_by comparing by descending wins; Vec::sort_by is
a stable merge sort, modelled by List.mergeSort. -/
def sortByWinsDesc (entries : List LeaderboardEntry) : List LeaderboardEntry :=
  entries.mergeSort (fun a b => decide (b.wins ≤ a.wins))

/-- The leaderboard step of distribute_pot: credit the winner if present,
else append a fresh entry only while the table holds fewer than
MAX_ENTRIES, else leave it unchanged; finally sort by descending wins. -/
def update_leaderboard (entries : List LeaderboardEntry)
    (winner_key winner_amount : Nat) :
    Except SolPotError (List LeaderboardEntry) :=
  match (if containsPlayer entries winner_key then
           creditFirst entries winner_key winner_amount
         else if entries.length < MAX_ENTRIES then
           .ok (entries ++ [⟨winner_key, 1, winner_amount⟩])
         else .ok entries) with
  | .error e => .error e
  | .ok entries1 => .ok (sortByWinsDesc entries1)

/-- Result of distribute_pot: updated round, updated lamport balances of
the round escrow, the winner and the fee receiver, the updated
leaderboard, and the amounts carried by the PotDistributed event. -/
structure DistributeResult where
  round : Round
  roundLamports : Nat
  winnerLamports : Nat
  feeReceiverLamports : Nat
  leaderboard : List LeaderboardEntry
  winner_amount : Nat
  fee_amount : Nat
  deriving DecidableEq

/-- distribute_pot. Account validation per the DistributePot Accounts
struct: has_winner (NoWinner), !pot_distributed (PotAlreadyDistributed),
winner account equal to round.winner and fee receiver equal to the config
authority (Unauthorized). minBalance is the rent minimum of the round
account. The body computes distributable = min(pot, lamports − minBalance),
fee = distributable * fee_bps / 10000 by checked mul then checked div,
winner_amount = distributable − fee, moves the lamports, zeroes the pot,
marks it distributed and updates the leaderboard. -/
def distribute_pot (gc : GameConfig) (round : Round)
    (roundLamports minBalance : Nat)
    (winnerAcc winnerLamports feeReceiverAcc feeReceiverLamports : Nat)
    (leaderboard : List LeaderboardEntry) :
    Except SolPotError DistributeResult :=
  if !round.has_winner then .error .NoWinner
  else if round.pot_distributed then .error .PotAlreadyDistributed
  else if winnerAcc ≠ round.winner then .error .Unauthorized
  else if feeReceiverAcc ≠ gc.authority then .error .Unauthorized
  else
    match chSub64 roundLamports minBalance with
    | none => .error .ArithmeticOverflow
    | some available =>
      let distributable := min round.pot_lamports available
      match chMul64 distributable gc.fee_basis_points with
      | none => .error .ArithmeticOverflow
      | some product =>
      match chDiv64 product 10000 with
      | none => .error .ArithmeticOverflow
      | some fee =>
        match chSub64 distributable fee with
        | none => .error .ArithmeticOverflow
        | some winner_amount =>
          match chSub64 roundLamports distributable with
          | none => .error .ArithmeticOverflow
          | some roundLamports1 =>
            match chAdd64 winnerLamports winner_amount with
            | none => .error .ArithmeticOverflow
            | some winnerLamports1 =>
              match chAdd64 feeReceiverLamports fee with
              | none => .error .ArithmeticOverflow
              | some feeReceiverLamports1 =>
                match update_leaderboard leaderboard round.winner winner_amount with
                | .error e => .error e
                | .ok lb1 =>
                  .ok ⟨{ round with pot_distributed := true, pot_lamports := 0 },
                    roundLamports1, winnerLamports1, feeReceiverLamports1,
                    lb1, winner_amount, fee⟩

/-- mint_reward_nft. Account validation per MintRewardNft: has_winner
(NoWinner), !nft_minted (NftAlreadyMinted), winner account equal to
round.winner (Unauthorized). The Metaplex Core CPI is an external call
that either fully succeeds or aborts the whole transaction; its successful
effect on the round is setting nft_minted. -/
def mint_reward_nft (round : Round) (winnerAcc : Nat) :
    Except SolPotError Round :=
  if !round.has_winner then .error .NoWinner
  else if round.nft_minted then .error .NftAlreadyMinted
  else if winnerAcc ≠ round.winner then .error .Unauthorized
  else .ok { round with nft_minted := true }

/-- Result of close_round: updated round, updated lamport balances of the
round escrow and the authority, and the refunded amount (0 when no refund
branch was taken). -/
structure CloseResult where
  round : Round
  roundLamports : Nat
  authorityLamports : Nat
  refund : Nat
  deriving DecidableEq

/-- close_round. The CloseRound Accounts struct constrains the signing
authority to gc.authority (has_one), so the refund recipient is the
operator identity; authorityLamports is that account's balance. Requires
(expired and no winner) or (winner and distributed), else RoundStillActive;
refunds min(pot, lamports − rent minimum) to the authority when closing a
winnerless round with positive pot; finally zeroes the pot and clears
is_active. -/
def close_round (gc : GameConfig) (round : Round)
    (roundLamports minBalance authorityLamports : Nat) (now : Int) :
    Except SolPotError CloseResult :=
  if ¬ ((round.expires_at ≤ now ∧ round.has_winner = false) ∨
        (round.has_winner = true ∧ round.pot_distributed = true)) then
    .error .RoundStillActive
  else if round.has_winner = false ∧ 0 < round.pot_lamports then
    match chSub64 roundLamports minBalance with
    | none => .error .ArithmeticOverflow
    | some available =>
      let refund := min round.pot_lamports available
      match chSub64 roundLamports refund, chAdd64 authorityLamports refund with
      | some rl1, some al1 =>
        .ok ⟨{ round with pot_lamports := 0, is_active := false }, rl1, al1, refund⟩
      | _, _ => .error .ArithmeticOverflow
  else
    .ok ⟨{ round with pot_lamports := 0, is_active := false },
      roundLamports, authorityLamports, 0⟩

/-
Helper lemmas: characterizations of the checked operations and of the
leaderboard helpers, plus success-inversion lemmas for the instructions.
-/

@[simp]
theorem chAdd64_eq_some {a b c : Nat} :
    chAdd64 a b = some c ↔ a + b < U64 ∧ c = a + b := by
  unfold chAdd64
  split <;> simp_all <;> omega

@[simp]
theorem chAdd32_eq_some {a b c : Nat} :
    chAdd32 a b = some c ↔ a + b < U32 ∧ c = a + b := by
  unfold chAdd32
  split <;> simp_all <;> omega

@[simp]
theorem chSub64_eq_some {a b c : Nat} :
    chSub64 a b = some c ↔ b ≤ a ∧ c = a - b := by
  unfold chSub64
  split <;> simp_all <;> omega

@[simp]
theorem chMul64_eq_some {a b c : Nat} :
    chMul64 a b = some c ↔ a * b < U64 ∧ c = a * b := by
  unfold chMul64
  split <;> simp_all
  exact eq_comm

@[simp]
theorem chDiv64_eq_some {a b c : Nat} :
    chDiv64 a b = some c ↔ b ≠ 0 ∧ c = a / b := by
  unfold chDiv64
  split <;> simp_all
  exact eq_comm

@[simp]
theorem chAddI64_eq_some {a b c : Int} :
    chAddI64 a b = some c ↔ (I64MIN ≤ a + b ∧ a + b ≤ I64MAX) ∧ c = a + b := by
  unfold chAddI64
  split <;> simp_all <;> omega

theorem sortByWinsDesc_sorted (l : List LeaderboardEntry) :
    (sortByWinsDesc l).Pairwise (fun a b => b.wins ≤ a.wins) := by
  have h : (sortByWinsDesc l).Pairwise
      (fun a b : LeaderboardEntry => decide (b.wins ≤ a.wins) = true) := by
    apply List.sorted_mergeSort
    · intro a b c hab hbc
      simp only [decide_eq_true_eq] at *
      omega
    · intro a b
      simp only [Bool.or_eq_true, decide_eq_true_eq]
      omega
  exact h.imp (by intro a b hb; simpa using hb)

theorem sortByWinsDesc_length (l : List LeaderboardEntry) :
    (sortByWinsDesc l).length = l.length := by
  simp [sortByWinsDesc]

/-- Stability of the leaderboard sort: any two entries appearing in order
with the second's wins at most the first's keep their relative order. -/
theorem sortByWinsDesc_stable (l : List LeaderboardEntry)
    (a b : LeaderboardEntry) (hs : [a, b].Sublist l) (hw : b.wins ≤ a.wins) :
    [a, b].Sublist (sortByWinsDesc l) := by
  apply List.pair_sublist_mergeSort
  · intro x y z hxy hyz
    simp only [decide_eq_true_eq] at *
    omega
  · intro x y
    simp only [Bool.or_eq_true, decide_eq_true_eq]
    omega
  · simpa using hw
  · exact hs

theorem creditFirst_length {entries : List LeaderboardEntry} {w amt : Nat}
    {out : List LeaderboardEntry} (h : creditFirst entries w amt = .ok out) :
    out.length = entries.length := by
  induction entries generalizing out with
  | nil =>
    simp only [creditFirst] at h
    cases h
    rfl
  | cons e rest ih =>
    simp only [creditFirst] at h
    split at h
    · split at h
      · cases h
        simp
      · cases h
    · split at h
      · cases h
        simp_all
      · cases h

theorem creditFirst_append (l1 : List LeaderboardEntry) (e : LeaderboardEntry)
    (l2 : List LeaderboardEntry) (w amt : Nat) (he : e.player = w)
    (hl1 : ∀ x ∈ l1, x.player ≠ w) (hw : e.wins + 1 < U32)
    (ht : e.total_winnings + amt < U64) :
    creditFirst (l1 ++ e :: l2) w amt =
      .ok (l1 ++ ⟨e.player, e.wins + 1, e.total_winnings + amt⟩ :: l2) := by
  induction l1 with
  | nil =>
    simp only [List.nil_append, creditFirst, he, if_pos]
    have h1 : chAdd32 e.wins 1 = some (e.wins + 1) := by simp [hw]
    have h2 : chAdd64 e.total_winnings amt = some (e.total_winnings + amt) := by
      simp [ht]
    rw [h1, h2]
  | cons x rest ih =>
    have hx : x.player ≠ w := hl1 x (by simp)
    have hih := ih (by intro y hy; exact hl1 y (by simp [hy]))
    simp only [List.cons_append, creditFirst, hx, if_neg, not_false_iff,
      List.append_eq, hih]

theorem update_leaderboard_length {entries : List LeaderboardEntry}
    {w amt : Nat} {out : List LeaderboardEntry}
    (h : update_leaderboard entries w amt = .ok out)
    (hb : entries.length ≤ MAX_ENTRIES) : out.length ≤ MAX_ENTRIES := by
  unfold update_leaderboard at h
  split at h
  · cases h
  · rename_i entries1 heq
    cases h
    rw [sortByWinsDesc_length]
    split at heq
    · have := creditFirst_length heq
      omega
    · split at heq
      · cases heq
        simp only [List.length_append, List.length_singleton]
        omega
      · cases heq
        omega

theorem enter_round_inv {round : Round} {ee : Bool} {rl pl p : Nat} {now : Int}
    {res : EnterResult}
    (h : enter_round round ee rl pl p now = .ok res) :
    ee = false ∧ round.is_active = true ∧ round.has_winner = false ∧
    round.player_count < round.max_players ∧ now < round.expires_at ∧
    round.entry_fee_lamports ≤ pl ∧
    round.pot_lamports + round.entry_fee_lamports < U64 ∧
    round.player_count + 1 < U32 ∧
    res = ⟨⟨round.id, round.word_hash, round.is_active, round.winner,
        round.has_winner, round.pot_lamports + round.entry_fee_lamports,
        round.pot_distributed, round.nft_minted, round.player_count + 1,
        round.max_players, round.created_at, round.expires_at,
        round.entry_fee_lamports⟩,
      rl + round.entry_fee_lamports, pl - round.entry_fee_lamports,
      ⟨p, round.id, now⟩⟩ := by
  unfold enter_round at h
  repeat' split at h
  all_goals try cases h
  all_goals simp_all
  all_goals omega

theorem submit_guess_inv {hashFn : List Char → List Nat} {round : Round}
    {pe ge : Bool} {p : Nat} {now : Int} {guess : List Char} {res : SubmitResult}
    (h : submit_guess hashFn round pe ge p now guess = .ok res) :
    pe = true ∧ ge = false ∧ round.is_active = true ∧
    round.has_winner = false ∧ now < round.expires_at ∧
    res.is_correct = decide (hashFn (guess.map Char.toLower) = round.word_hash) ∧
    res.guess_record_created = true ∧
    (hashFn (guess.map Char.toLower) = round.word_hash →
      res.round = ⟨round.id, round.word_hash, false, p, true,
        round.pot_lamports, round.pot_distributed, round.nft_minted,
        round.player_count, round.max_players, round.created_at,
        round.expires_at, round.entry_fee_lamports⟩) ∧
    (hashFn (guess.map Char.toLower) ≠ round.word_hash → res.round = round) := by
  unfold submit_guess at h
  repeat' split at h
  all_goals try cases h
  all_goals simp_all
  all_goals repeat' split at h
  all_goals try cases h
  all_goals simp_all

theorem create_round_inv {gc : GameConfig} {now : Int} {wh : List Nat}
    {mp : Nat} {dur : Int} {res : CreateResult}
    (h : create_round gc now wh mp dur = .ok res) :
    (I64MIN ≤ now + dur ∧ now + dur ≤ I64MAX) ∧ gc.round_count + 1 < U64 ∧
    res = ⟨⟨gc.authority, gc.round_count + 1, gc.entry_fee_lamports,
        gc.fee_basis_points⟩,
      ⟨gc.round_count, wh, true, 0, false, 0, false, false, 0, mp, now,
        now + dur, gc.entry_fee_lamports⟩⟩ := by
  unfold create_round at h
  repeat' split at h
  all_goals try cases h
  all_goals simp_all

theorem distribute_pot_inv {gc : GameConfig} {round : Round}
    {rl mb wa wl fa fl : Nat} {lb : List LeaderboardEntry}
    {res : DistributeResult}
    (h : distribute_pot gc round rl mb wa wl fa fl lb = .ok res) :
    round.has_winner = true ∧ round.pot_distributed = false ∧
    wa = round.winner ∧ fa = gc.authority ∧ mb ≤ rl ∧
    res.fee_amount =
      min round.pot_lamports (rl - mb) * gc.fee_basis_points / 10000 ∧
    res.fee_amount ≤ min round.pot_lamports (rl - mb) ∧
    res.winner_amount = min round.pot_lamports (rl - mb) - res.fee_amount ∧
    res.round = ⟨round.id, round.word_hash, round.is_active, round.winner,
      round.has_winner, 0, true, round.nft_minted, round.player_count,
      round.max_players, round.created_at, round.expires_at,
      round.entry_fee_lamports⟩ ∧
    res.roundLamports = rl - min round.pot_lamports (rl - mb) ∧
    res.winnerLamports = wl + res.winner_amount ∧
    res.feeReceiverLamports = fl + res.fee_amount ∧
    update_leaderboard lb round.winner res.winner_amount = .ok res.leaderboard := by
  unfold distribute_pot at h
  repeat' split at h
  all_goals try cases h
  all_goals simp_all
  all_goals repeat' split at h
  all_goals try cases h
  all_goals simp_all

theorem close_round_inv {gc : GameConfig} {round : Round} {rl mb al : Nat}
    {now : Int} {res : CloseResult}
    (h : close_round gc round rl mb al now = .ok res) :
    ((round.expires_at ≤ now ∧ round.has_winner = false) ∨
      (round.has_winner = true ∧ round.pot_distributed = true)) ∧
    res.round = ⟨round.id, round.word_hash, false, round.winner,
      round.has_winner, 0, round.pot_distributed, round.nft_minted,
      round.player_count, round.max_players, round.created_at,
      round.expires_at, round.entry_fee_lamports⟩ ∧
    (round.has_winner = false ∧ 0 < round.pot_lamports →
      mb ≤ rl ∧ res.refund = min round.pot_lamports (rl - mb) ∧
      res.roundLamports = rl - res.refund ∧
      res.authorityLamports = al + res.refund ∧ al + res.refund < U64) ∧
    (¬ (round.has_winner = false ∧ 0 < round.pot_lamports) →
      res.refund = 0 ∧ res.roundLamports = rl ∧ res.authorityLamports = al) := by
  unfold close_round at h
  repeat' split at h
  all_goals try cases h
  all_goals simp_all
  all_goals repeat' split at h
  all_goals try cases h
  all_goals try simp_all
  all_goals try tauto
  all_goals cases hhw : round.has_winner <;> simp_all

theorem mint_reward_nft_inv {round : Round} {wa : Nat} {res : Round}
    (h : mint_reward_nft round wa = .ok res) :
    round.has_winner = true ∧ round.nft_minted = false ∧ wa = round.winner ∧
    res = ⟨round.id, round.word_hash, round.is_active, round.winner,
      round.has_winner, round.pot_lamports, round.pot_distributed, true,
      round.player_count, round.max_players, round.created_at,
      round.expires_at, round.entry_fee_lamports⟩ := by
  unfold mint_reward_nft at h
  repeat' split at h
  all_goals try cases h
  all_goals simp_all

@[simp]
theorem chAdd64_eq_none {a b : Nat} : chAdd64 a b = none ↔ U64 ≤ a + b := by
  unfold chAdd64
  split <;> simp_all

@[simp]
theorem chAdd32_eq_none {a b : Nat} : chAdd32 a b = none ↔ U32 ≤ a + b := by
  unfold chAdd32
  split <;> simp_all

theorem update_leaderboard_ok_sorted {entries : List LeaderboardEntry}
    {w amt : Nat} {out : List LeaderboardEntry}
    (h : update_leaderboard entries w amt = .ok out) :
    out.Pairwise (fun a b => b.wins ≤ a.wins) := by
  unfold update_leaderboard at h
  split at h
  · cases h
  · cases h
    exact sortByWinsDesc_sorted _

/-- Positive direction for close_round: under the lifecycle precondition and
the two arithmetic well-formedness conditions, the call succeeds. -/
theorem close_round_ok (gc : GameConfig) (round : Round) (rl mb al : Nat)
    (now : Int)
    (hpre : (round.expires_at ≤ now ∧ round.has_winner = false) ∨
      (round.has_winner = true ∧ round.pot_distributed = true))
    (hmb : mb ≤ rl)
    (hov : al + min round.pot_lamports (rl - mb) < U64) :
    ∃ res, close_round gc round rl mb al now = .ok res := by
  unfold close_round
  rw [if_neg (not_not_intro hpre)]
  by_cases hc : round.has_winner = false ∧ 0 < round.pot_lamports
  · rw [if_pos hc]
    have h1 : chSub64 rl mb = some (rl - mb) := by simp [hmb]
    have h2 : chSub64 rl (min round.pot_lamports (rl - mb)) =
        some (rl - min round.pot_lamports (rl - mb)) := by
      rw [chSub64_eq_some]
      omega
    have h3 : chAdd64 al (min round.pot_lamports (rl - mb)) =
        some (al + min round.pot_lamports (rl - mb)) := by
      simp [hov]
    rw [h1]
    simp only [h2, h3]
    exact ⟨_, rfl⟩
  · rw [if_neg hc]
    exact ⟨_, rfl⟩

theorem enter_round_no_incorrect (round : Round) (ee : Bool) (rl pl p : Nat)
    (now : Int) :
    enter_round round ee rl pl p now ≠ .error .IncorrectGuess := by
  unfold enter_round
  repeat' split
  all_goals simp

theorem submit_guess_no_incorrect (hashFn : List Char → List Nat) (round : Round)
    (pe ge : Bool) (p : Nat) (now : Int) (guess : List Char) :
    submit_guess hashFn round pe ge p now guess ≠ .error .IncorrectGuess := by
  unfold submit_guess
  repeat' split
  all_goals try simp
  all_goals split
  all_goals simp

theorem initialize_game_no_incorrect (a ef fb : Nat) :
    initialize_game a ef fb ≠ .error .IncorrectGuess := by
  unfold initialize_game
  split <;> simp

theorem create_round_no_incorrect (gc : GameConfig) (now : Int)
    (wh : List Nat) (mp : Nat) (dur : Int) :
    create_round gc now wh mp dur ≠ .error .IncorrectGuess := by
  unfold create_round
  repeat' split
  all_goals simp

theorem creditFirst_error_overflow {entries : List LeaderboardEntry}
    {w amt : Nat} {e : SolPotError} (h : creditFirst entries w amt = .error e) :
    e = .ArithmeticOverflow := by
  induction entries with
  | nil => simp [creditFirst] at h
  | cons x rest ih =>
    simp only [creditFirst] at h
    split at h
    · split at h
      · cases h
      · cases h
        rfl
    · split at h
      · cases h
      · rename_i heq
        cases h
        exact ih heq

theorem update_leaderboard_error_overflow {entries : List LeaderboardEntry}
    {w amt : Nat} {e : SolPotError}
    (h : update_leaderboard entries w amt = .error e) :
    e = .ArithmeticOverflow := by
  unfold update_leaderboard at h
  split at h
  · rename_i heq
    cases h
    split at heq
    · exact creditFirst_error_overflow heq
    · split at heq
      · cases heq
      · cases heq
  · cases h

theorem distribute_pot_no_incorrect (gc : GameConfig) (round : Round)
    (rl mb wa wl fa fl : Nat) (lb : List LeaderboardEntry) :
    distribute_pot gc round rl mb wa wl fa fl lb ≠ .error .IncorrectGuess := by
  unfold distribute_pot
  repeat' split
  all_goals try simp
  all_goals repeat' split
  all_goals try simp
  all_goals
    rename_i e heq
  all_goals
    have h2 := update_leaderboard_error_overflow heq
  all_goals simp [h2]

theorem mint_reward_nft_no_incorrect (round : Round) (wa : Nat) :
    mint_reward_nft round wa ≠ .error .IncorrectGuess := by
  unfold mint_reward_nft
  repeat' split
  all_goals simp

theorem close_round_no_incorrect (gc : GameConfig) (round : Round)
    (rl mb al : Nat) (now : Int) :
    close_round gc round rl mb al now ≠ .error .IncorrectGuess := by
  unfold close_round
  repeat' split
  all_goals try simp
  all_goals repeat' split
  all_goals simp

/-
Concrete sample inputs used by the claim witnesses and the counterexample.
-/

/-- A 32-byte all-zero word commitment. -/
def whS : List Nat := List.replicate 32 0

/-- Sample config: authority 7, three rounds created, entry fee 1000,
fee rate 500 basis points (5 percent). -/
def gcS : GameConfig := ⟨7, 3, 1000, 500⟩

/-- Sample won round: winner 5, pot 3000, three players, not yet
distributed. -/
def roundW : Round := ⟨0, whS, false, 5, true, 3000, false, false, 3, 10, 0, 100, 1000⟩

/-- Expected result of distributing roundW with 4000 escrow lamports and a
1000-lamport rent floor. -/
def resW : DistributeResult :=
  ⟨⟨0, whS, false, 5, true, 0, true, false, 3, 10, 0, 100, 1000⟩,
    1000, 2850, 150, [⟨5, 1, 2850⟩], 2850, 150⟩

/-- Sample open round with word commitment [5], pot 3000, 3 of 10 players,
expiring at time 100. -/
def roundS : Round := ⟨1, [5], true, 0, false, 3000, false, false, 3, 10, 0, 100, 1000⟩

/-- Sample digest function for witnesses: the length of the normalized
guess, as a one-byte digest. -/
def hashLen : List Char → List Nat := fun s => [s.length]

/-- Sample expired winnerless round with residual pot 2000. -/
def roundX : Round := ⟨2, whS, true, 0, false, 2000, false, false, 2, 10, 0, 100, 1000⟩

/-
The ten claims.
-/

/-- C1: for every successful distribute_pot call, with
distributable = min(pot, escrow − rent minimum), the fee equals
floor(distributable * fee_rate / 10000), the winner amount equals
distributable − fee (so winner_amount + fee_amount = distributable), and
afterwards the round's pot is 0 and pot_distributed is true; in particular
with fee_rate = 500 and pot = 3000 fully available, fee = 150 and
winner_amount = 2850. -/
theorem distribute_pot_fee_split :
    (∀ (gc : GameConfig) (round : Round) (rl mb wa wl fa fl : Nat)
        (lb : List LeaderboardEntry) (res : DistributeResult),
      distribute_pot gc round rl mb wa wl fa fl lb = .ok res →
      res.fee_amount =
        min round.pot_lamports (rl - mb) * gc.fee_basis_points / 10000 ∧
      res.winner_amount = min round.pot_lamports (rl - mb) - res.fee_amount ∧
      res.winner_amount + res.fee_amount = min round.pot_lamports (rl - mb) ∧
      res.round.pot_lamports = 0 ∧ res.round.pot_distributed = true) ∧
    distribute_pot gcS roundW 4000 1000 5 0 7 0 [] = .ok resW ∧
    resW.fee_amount = 150 ∧ resW.winner_amount = 2850 := by
  refine ⟨?_, ?_, rfl, rfl⟩
  · intro gc round rl mb wa wl fa fl lb res h
    obtain ⟨_, _, _, _, hmb, hfee, hle, hwin, hround, _, _, _, _⟩ :=
      distribute_pot_inv h
    exact ⟨hfee, hwin, by omega, by simp [hround], by simp [hround]⟩
  · norm_num [distribute_pot, gcS, roundW, resW, whS, update_leaderboard,
      containsPlayer, creditFirst, sortByWinsDesc, MAX_ENTRIES, chSub64,
      chMul64, chDiv64, chAdd64, U64]

theorem distribute_pot_fee_split_witness :
    resW.fee_amount =
      min roundW.pot_lamports (4000 - 1000) * gcS.fee_basis_points / 10000 ∧
    resW.winner_amount =
      min roundW.pot_lamports (4000 - 1000) - resW.fee_amount ∧
    resW.winner_amount + resW.fee_amount =
      min roundW.pot_lamports (4000 - 1000) ∧
    resW.round.pot_lamports = 0 ∧ resW.round.pot_distributed = true :=
  distribute_pot_fee_split.1 gcS roundW 4000 1000 5 0 7 0 [] resW
    (by norm_num [distribute_pot, gcS, roundW, resW, whS, update_leaderboard,
      containsPlayer, creditFirst, sortByWinsDesc, MAX_ENTRIES, chSub64,
      chMul64, chDiv64, chAdd64, U64])

/-- C2: for every submit_guess call passing its preconditions, the guess is
lowercased, hashed, and the digest compared byte-for-byte with the round's
32-byte commitment; exactly on a match the winner is set to the caller,
has_winner becomes true and is_active becomes false in the same step; on a
non-match the round is unchanged. -/
theorem submit_guess_verification (hashFn : List Char → List Nat)
    (round : Round) (p : Nat) (now : Int) (guess : List Char)
    (hact : round.is_active = true) (hwin : round.has_winner = false)
    (hexp : now < round.expires_at) :
    (hashFn (guess.map Char.toLower) = round.word_hash →
      submit_guess hashFn round true false p now guess =
        .ok ⟨⟨round.id, round.word_hash, false, p, true, round.pot_lamports,
          round.pot_distributed, round.nft_minted, round.player_count,
          round.max_players, round.created_at, round.expires_at,
          round.entry_fee_lamports⟩, true, true⟩) ∧
    (hashFn (guess.map Char.toLower) ≠ round.word_hash →
      submit_guess hashFn round true false p now guess =
        .ok ⟨round, false, true⟩) := by
  have hne : ¬ round.expires_at ≤ now := by omega
  constructor <;> intro hm <;> simp [submit_guess, hact, hwin, hne, hm]

theorem submit_guess_verification_witness :
    submit_guess hashLen roundS true false 9 0 ['A', 'P', 'P', 'L', 'E'] =
      .ok ⟨⟨1, [5], false, 9, true, 3000, false, false, 3, 10, 0, 100, 1000⟩,
        true, true⟩ :=
  (submit_guess_verification hashLen roundS 9 0 ['A', 'P', 'P', 'L', 'E'] (by decide)
    (by decide) (by decide)).1 (by decide)

/-- C3: a second enter_round by the same player in the same round always
fails with AlreadyEntered and a second submit_guess always fails with
AlreadyGuessed, whatever the round state and whichever guesses were made;
the guess-record creation attempt precedes the instruction body's checks
and is the sole enforcement of one guess per player: without an existing
record neither error can arise. -/
theorem dedup_enter_and_guess :
    (∀ (round : Round) (rl pl p : Nat) (now : Int),
      enter_round round true rl pl p now = .error .AlreadyEntered) ∧
    (∀ (hashFn : List Char → List Nat) (round : Round) (p : Nat) (now : Int)
        (guess : List Char),
      submit_guess hashFn round true true p now guess =
        .error .AlreadyGuessed) ∧
    (∀ (hashFn : List Char → List Nat) (round : Round) (pe : Bool) (p : Nat)
        (now : Int) (guess : List Char),
      submit_guess hashFn round pe false p now guess ≠
        .error .AlreadyGuessed) ∧
    (∀ (round : Round) (rl pl p : Nat) (now : Int),
      enter_round round false rl pl p now ≠ .error .AlreadyEntered) := by
  refine ⟨?_, ?_, ?_, ?_⟩
  · intro round rl pl p now
    simp [enter_round]
  · intro hashFn round p now guess
    simp [submit_guess]
  · intro hashFn round pe p now guess
    unfold submit_guess
    repeat' split
    all_goals try simp_all
    all_goals try split
    all_goals simp_all
  · intro round rl pl p now
    unfold enter_round
    repeat' split
    all_goals simp_all

/-- C4: enter_round checks its four preconditions in the order is_active,
not has_winner, player_count < max_players, now < expires_at, failing with
RoundNotActive, RoundAlreadyWon, MaxPlayersReached, RoundExpired
respectively; on success it transfers exactly entry_fee lamports from the
player into the escrow and increments pot by entry_fee and player_count by
one, both by checked addition failing ArithmeticOverflow. -/
theorem enter_round_check_order (round : Round) (rl pl p : Nat) (now : Int) :
    (round.is_active = false →
      enter_round round false rl pl p now = .error .RoundNotActive) ∧
    (round.is_active = true → round.has_winner = true →
      enter_round round false rl pl p now = .error .RoundAlreadyWon) ∧
    (round.is_active = true → round.has_winner = false →
      round.max_players ≤ round.player_count →
      enter_round round false rl pl p now = .error .MaxPlayersReached) ∧
    (round.is_active = true → round.has_winner = false →
      round.player_count < round.max_players → round.expires_at ≤ now →
      enter_round round false rl pl p now = .error .RoundExpired) ∧
    (∀ res, enter_round round false rl pl p now = .ok res →
      res.roundLamports = rl + round.entry_fee_lamports ∧
      res.playerLamports = pl - round.entry_fee_lamports ∧
      round.entry_fee_lamports ≤ pl ∧
      res.round.pot_lamports =
        round.pot_lamports + round.entry_fee_lamports ∧
      res.round.player_count = round.player_count + 1) ∧
    (round.is_active = true → round.has_winner = false →
      round.player_count < round.max_players → now < round.expires_at →
      round.entry_fee_lamports ≤ pl →
      U64 ≤ round.pot_lamports + round.entry_fee_lamports →
      enter_round round false rl pl p now = .error .ArithmeticOverflow) ∧
    (round.is_active = true → round.has_winner = false →
      round.player_count < round.max_players → now < round.expires_at →
      round.entry_fee_lamports ≤ pl →
      round.pot_lamports + round.entry_fee_lamports < U64 →
      U32 ≤ round.player_count + 1 →
      enter_round round false rl pl p now = .error .ArithmeticOverflow) := by
  refine ⟨?_, ?_, ?_, ?_, ?_, ?_, ?_⟩
  · intro h1
    simp [enter_round, h1]
  · intro h1 h2
    simp [enter_round, h1, h2]
  · intro h1 h2 h3
    simp [enter_round, h1, h2, h3]
  · intro h1 h2 h3 h4
    have h3n : ¬ round.max_players ≤ round.player_count := not_le.mpr h3
    simp [enter_round, h1, h2, h3n, h4]
  · intro res h
    obtain ⟨_, _, _, _, _, hfee, _, _, hres⟩ := enter_round_inv h
    subst hres
    simp [hfee]
  · intro h1 h2 h3 h4 h5 h6
    have h3n : ¬ round.max_players ≤ round.player_count := not_le.mpr h3
    have h4n : ¬ round.expires_at ≤ now := not_le.mpr h4
    have h5n : ¬ pl < round.entry_fee_lamports := not_lt.mpr h5
    have h6n : chAdd64 round.pot_lamports round.entry_fee_lamports = none := by
      simp [h6]
    simp [enter_round, h1, h2, h3n, h4n, h5n, h6n]
  · intro h1 h2 h3 h4 h5 h6 h7
    have h3n : ¬ round.max_players ≤ round.player_count := not_le.mpr h3
    have h4n : ¬ round.expires_at ≤ now := not_le.mpr h4
    have h5n : ¬ pl < round.entry_fee_lamports := not_lt.mpr h5
    have h6s : chAdd64 round.pot_lamports round.entry_fee_lamports =
        some (round.pot_lamports + round.entry_fee_lamports) := by
      simp [h6]
    have h7n : chAdd32 round.player_count 1 = none := by
      simp [h7]
    simp [enter_round, h1, h2, h3n, h4n, h5n, h6s, h7n]

theorem enter_round_check_order_witness :
    enter_round roundS false 2000 5000 9 0 =
      .ok ⟨⟨1, [5], true, 0, false, 4000, false, false, 4, 10, 0, 100, 1000⟩,
        3000, 4000, ⟨9, 1, 0⟩⟩ ∧
    (⟨⟨1, [5], true, 0, false, 4000, false, false, 4, 10, 0, 100, 1000⟩,
        3000, 4000, ⟨9, 1, 0⟩⟩ : EnterResult).roundLamports =
      2000 + roundS.entry_fee_lamports := by
  refine ⟨by decide, ?_⟩
  exact ((enter_round_check_order roundS 2000 5000 9 0).2.2.2.2.1 _
    (by decide)).1

/-- C5: close_round succeeds exactly when the round is expired with no
winner or has a winner with the pot distributed, failing RoundStillActive
otherwise; closing an expired winnerless round with positive pot refunds
min(pot, escrow − rent minimum) to the operator authority, and every
successful close zeroes the pot and clears is_active. -/
theorem close_round_spec (gc : GameConfig) (round : Round) (rl mb al : Nat)
    (now : Int) (hmb : mb ≤ rl)
    (hov : al + min round.pot_lamports (rl - mb) < U64) :
    ((∃ res, close_round gc round rl mb al now = .ok res) ↔
      ((round.expires_at ≤ now ∧ round.has_winner = false) ∨
        (round.has_winner = true ∧ round.pot_distributed = true))) ∧
    (¬ ((round.expires_at ≤ now ∧ round.has_winner = false) ∨
        (round.has_winner = true ∧ round.pot_distributed = true)) →
      close_round gc round rl mb al now = .error .RoundStillActive) ∧
    (∀ res, close_round gc round rl mb al now = .ok res →
      res.round.pot_lamports = 0 ∧ res.round.is_active = false ∧
      (round.has_winner = false → 0 < round.pot_lamports →
        res.refund = min round.pot_lamports (rl - mb) ∧
        res.authorityLamports = al + res.refund ∧
        res.roundLamports = rl - res.refund)) := by
  refine ⟨⟨?_, ?_⟩, ?_, ?_⟩
  · rintro ⟨res, h⟩
    exact (close_round_inv h).1
  · intro hpre
    exact close_round_ok gc round rl mb al now hpre hmb hov
  · intro hn
    unfold close_round
    rw [if_pos hn]
  · intro res h
    obtain ⟨_, hres, hrefund, _⟩ := close_round_inv h
    refine ⟨by simp [hres], by simp [hres], ?_⟩
    intro hw hp
    obtain ⟨_, h1, h2, h3, _⟩ := hrefund ⟨hw, hp⟩
    exact ⟨h1, h3, h2⟩

theorem close_round_spec_witness :
    (∃ res, close_round gcS roundX 3000 500 10 100 = .ok res) ∧
    ¬ ((roundX.expires_at ≤ (50 : Int) ∧ roundX.has_winner = false) ∨
        (roundX.has_winner = true ∧ roundX.pot_distributed = true)) ∧
    close_round gcS roundX 3000 500 10 50 = .error .RoundStillActive := by
  refine ⟨?_, by decide, ?_⟩
  · exact (close_round_spec gcS roundX 3000 500 10 100 (by decide)
      (by decide)).1.mpr (Or.inl (by decide))
  · exact (close_round_spec gcS roundX 3000 500 10 50 (by decide)
      (by decide)).2.1 (by decide)

/-- C6: every successful distribute_pot updates the leaderboard by
crediting an existing entry of the winner (checked increments of wins and
total_winnings), else appending a fresh entry only while the table holds
fewer than 50 entries (a full table silently ignores the new winner
without an error), and finally re-sorting descending by win count with a
stable sort, so the table never exceeds 50 entries. -/
theorem distribute_pot_leaderboard :
    (∀ (gc : GameConfig) (round : Round) (rl mb wa wl fa fl : Nat)
        (lb : List LeaderboardEntry) (res : DistributeResult),
      distribute_pot gc round rl mb wa wl fa fl lb = .ok res →
      update_leaderboard lb round.winner res.winner_amount =
        .ok res.leaderboard) ∧
    (∀ (lb : List LeaderboardEntry) (w amt : Nat),
      containsPlayer lb w = false → lb.length < MAX_ENTRIES →
      update_leaderboard lb w amt =
        .ok (sortByWinsDesc (lb ++ [⟨w, 1, amt⟩]))) ∧
    (∀ (lb : List LeaderboardEntry) (w amt : Nat),
      containsPlayer lb w = false → MAX_ENTRIES ≤ lb.length →
      update_leaderboard lb w amt = .ok (sortByWinsDesc lb)) ∧
    (∀ (l1 : List LeaderboardEntry) (e : LeaderboardEntry)
        (l2 : List LeaderboardEntry) (w amt : Nat),
      e.player = w → (∀ x ∈ l1, x.player ≠ w) → e.wins + 1 < U32 →
      e.total_winnings + amt < U64 →
      update_leaderboard (l1 ++ e :: l2) w amt =
        .ok (sortByWinsDesc
          (l1 ++ ⟨e.player, e.wins + 1, e.total_winnings + amt⟩ :: l2))) ∧
    (∀ (lb : List LeaderboardEntry) (w amt : Nat)
        (out : List LeaderboardEntry),
      update_leaderboard lb w amt = .ok out →
      out.Pairwise (fun a b => b.wins ≤ a.wins) ∧
      (lb.length ≤ MAX_ENTRIES → out.length ≤ MAX_ENTRIES)) ∧
    (∀ (lb : List LeaderboardEntry) (a b : LeaderboardEntry),
      [a, b].Sublist lb → b.wins ≤ a.wins →
      [a, b].Sublist (sortByWinsDesc lb)) := by
  refine ⟨?_, ?_, ?_, ?_, ?_, ?_⟩
  · intro gc round rl mb wa wl fa fl lb res h
    obtain ⟨_, _, _, _, _, _, _, _, _, _, _, _, hlb⟩ := distribute_pot_inv h
    exact hlb
  · intro lb w amt hc hl
    simp [update_leaderboard, hc, hl]
  · intro lb w amt hc hl
    have hln : ¬ lb.length < MAX_ENTRIES := not_lt.mpr hl
    simp [update_leaderboard, hc, hln]
  · intro l1 e l2 w amt he hl1 hw ht
    have hcp : containsPlayer (l1 ++ e :: l2) w = true := by
      simp only [containsPlayer, List.any_eq_true]
      refine ⟨e, ?_, ?_⟩ <;> simp [he]
    simp [update_leaderboard, hcp,
      creditFirst_append l1 e l2 w amt he hl1 hw ht]
  · intro lb w amt out h
    exact ⟨update_leaderboard_ok_sorted h,
      fun hb => update_leaderboard_length h hb⟩
  · intro lb a b hs hw
    exact sortByWinsDesc_stable lb a b hs hw

theorem distribute_pot_leaderboard_witness :
    (sortByWinsDesc ([⟨1, 2, 500⟩] ++ [⟨5, 1, 100⟩])).Pairwise
      (fun a b : LeaderboardEntry => b.wins ≤ a.wins) ∧
    ([(⟨1, 2, 500⟩ : LeaderboardEntry)].length ≤ MAX_ENTRIES →
      (sortByWinsDesc ([⟨1, 2, 500⟩] ++ [⟨5, 1, 100⟩])).length ≤
        MAX_ENTRIES) :=
  distribute_pot_leaderboard.2.2.2.2.1 [⟨1, 2, 500⟩] 5 100
    (sortByWinsDesc ([⟨1, 2, 500⟩] ++ [⟨5, 1, 100⟩]))
    (by simp [update_leaderboard, containsPlayer, MAX_ENTRIES])

/-- C7: for enter_round and submit_guess the expiry comparison is strict:
at now exactly equal to expires_at both fail with RoundExpired; and
enter_round at player_count equal to max_players fails with
MaxPlayersReached. -/
theorem expiry_boundary (hashFn : List Char → List Nat) (round : Round)
    (rl pl p : Nat) (now : Int) (guess : List Char) :
    (round.is_active = true → round.has_winner = false →
      round.player_count < round.max_players →
      enter_round round false rl pl p round.expires_at =
        .error .RoundExpired) ∧
    (round.is_active = true → round.has_winner = false →
      submit_guess hashFn round true false p round.expires_at guess =
        .error .RoundExpired) ∧
    (round.is_active = true → round.has_winner = false →
      round.player_count = round.max_players →
      enter_round round false rl pl p now = .error .MaxPlayersReached) := by
  refine ⟨?_, ?_, ?_⟩
  · intro h1 h2 h3
    have h3n : ¬ round.max_players ≤ round.player_count := not_le.mpr h3
    simp [enter_round, h1, h2, h3n]
  · intro h1 h2
    simp [submit_guess, h1, h2]
  · intro h1 h2 h3
    simp [enter_round, h1, h2, h3]

theorem expiry_boundary_witness :
    enter_round roundS false 0 5000 9 roundS.expires_at =
      .error .RoundExpired :=
  (expiry_boundary hashLen roundS 0 5000 9 0 []).1 (by decide) (by decide)
    (by decide)

/-- Expected output of the C8 counterexample run: duration 0 gives a round
whose expires_at equals its created_at. -/
def resC8 : CreateResult :=
  ⟨⟨7, 4, 1000, 500⟩, ⟨3, whS, true, 0, false, 0, false, false, 0, 10, 0, 0, 1000⟩⟩

/-- C8 counterexample: create_round accepts duration_seconds = 0 (no
positivity check exists in the code), succeeds, and produces a round with
expires_at = created_at, refuting the claim that every successfully
created round satisfies expires_at > created_at. -/
theorem create_round_expiry_cex :
    create_round gcS 0 whS 10 0 = .ok resC8 ∧
    ¬ (resC8.round.expires_at > resC8.round.created_at) := by
  constructor
  · decide
  · decide

/-- C8 amended: every successful create_round sets created_at = now and
expires_at = now + duration_seconds (checked i64 addition, failing
ArithmeticOverflow outside the i64 range), so expires_at > created_at
holds whenever duration_seconds > 0. -/
theorem create_round_expires_at :
    (∀ (gc : GameConfig) (now : Int) (wh : List Nat) (mp : Nat) (dur : Int)
        (res : CreateResult),
      create_round gc now wh mp dur = .ok res →
      res.round.created_at = now ∧ res.round.expires_at = now + dur ∧
      (0 < dur → res.round.created_at < res.round.expires_at)) ∧
    (∀ (gc : GameConfig) (now : Int) (wh : List Nat) (mp : Nat) (dur : Int),
      ¬ (I64MIN ≤ now + dur ∧ now + dur ≤ I64MAX) →
      create_round gc now wh mp dur = .error .ArithmeticOverflow) := by
  constructor
  · intro gc now wh mp dur res h
    obtain ⟨_, _, hres⟩ := create_round_inv h
    subst hres
    refine ⟨rfl, rfl, ?_⟩
    intro hd
    simp only []
    omega
  · intro gc now wh mp dur h
    have hn : chAddI64 now dur = none := by
      unfold chAddI64
      rw [if_neg h]
    simp [create_round, hn]

/-- Expected output of the C8 witness run with duration 100. -/
def resC8b : CreateResult :=
  ⟨⟨7, 4, 1000, 500⟩, ⟨3, whS, true, 0, false, 0, false, false, 0, 10, 0, 100, 1000⟩⟩

theorem create_round_expires_at_witness :
    resC8b.round.created_at = 0 ∧ resC8b.round.expires_at = 0 + 100 ∧
    ((0 : Int) < 100 →
      resC8b.round.created_at < resC8b.round.expires_at) :=
  create_round_expires_at.1 gcS 0 whS 10 100 resC8b (by decide)

/-- C9: submit_guess succeeds regardless of whether the guess matches,
carrying the boolean outcome of the GuessResult event and consuming the
player's single guess record; the declared error IncorrectGuess is never
returned by any operation. -/
theorem submit_guess_total_no_incorrect :
    (∀ (hashFn : List Char → List Nat) (round : Round) (p : Nat) (now : Int)
        (guess : List Char),
      round.is_active = true → round.has_winner = false →
      now < round.expires_at →
      ∃ res, submit_guess hashFn round true false p now guess = .ok res ∧
        res.is_correct =
          decide (hashFn (guess.map Char.toLower) = round.word_hash) ∧
        res.guess_record_created = true) ∧
    (∀ (round : Round) (ee : Bool) (rl pl p : Nat) (now : Int),
      enter_round round ee rl pl p now ≠ .error .IncorrectGuess) ∧
    (∀ (hashFn : List Char → List Nat) (round : Round) (pe ge : Bool)
        (p : Nat) (now : Int) (guess : List Char),
      submit_guess hashFn round pe ge p now guess ≠
        .error .IncorrectGuess) ∧
    (∀ (a ef fb : Nat), initialize_game a ef fb ≠ .error .IncorrectGuess) ∧
    (∀ (gc : GameConfig) (now : Int) (wh : List Nat) (mp : Nat) (dur : Int),
      create_round gc now wh mp dur ≠ .error .IncorrectGuess) ∧
    (∀ (gc : GameConfig) (round : Round) (rl mb wa wl fa fl : Nat)
        (lb : List LeaderboardEntry),
      distribute_pot gc round rl mb wa wl fa fl lb ≠
        .error .IncorrectGuess) ∧
    (∀ (round : Round) (wa : Nat),
      mint_reward_nft round wa ≠ .error .IncorrectGuess) ∧
    (∀ (gc : GameConfig) (round : Round) (rl mb al : Nat) (now : Int),
      close_round gc round rl mb al now ≠ .error .IncorrectGuess) := by
  refine ⟨?_, enter_round_no_incorrect, submit_guess_no_incorrect,
    initialize_game_no_incorrect, create_round_no_incorrect,
    distribute_pot_no_incorrect, mint_reward_nft_no_incorrect,
    close_round_no_incorrect⟩
  intro hashFn round p now guess h1 h2 h3
  have hne : ¬ round.expires_at ≤ now := by omega
  by_cases hm : hashFn (guess.map Char.toLower) = round.word_hash
  · refine ⟨⟨⟨round.id, round.word_hash, false, p, true, round.pot_lamports,
      round.pot_distributed, round.nft_minted, round.player_count,
      round.max_players, round.created_at, round.expires_at,
      round.entry_fee_lamports⟩, true, true⟩, ?_, ?_, rfl⟩
    · simp [submit_guess, h1, h2, hne, hm]
    · simp [hm]
  · refine ⟨⟨round, false, true⟩, ?_, ?_, rfl⟩
    · simp [submit_guess, h1, h2, hne, hm]
    · simp [hm]

theorem submit_guess_total_no_incorrect_witness :
    ∃ res, submit_guess hashLen roundS true false 9 0 ['x'] = .ok res ∧
      res.is_correct =
        decide (hashLen (['x'].map Char.toLower) = roundS.word_hash) ∧
      res.guess_record_created = true :=
  submit_guess_total_no_incorrect.1 hashLen roundS 9 0 ['x'] (by decide)
    (by decide) (by decide)

/-- C10: a successful close_round changes only pot_lamports (to 0) and
is_active (to false), leaving every other Round field unchanged; and no
operation ever turns is_active back to true, so a closed round cannot be
re-opened. -/
theorem close_round_frame_no_reopen :
    (∀ (gc : GameConfig) (round : Round) (rl mb al : Nat) (now : Int)
        (res : CloseResult),
      close_round gc round rl mb al now = .ok res →
      res.round = ⟨round.id, round.word_hash, false, round.winner,
        round.has_winner, 0, round.pot_distributed, round.nft_minted,
        round.player_count, round.max_players, round.created_at,
        round.expires_at, round.entry_fee_lamports⟩) ∧
    (∀ (round : Round) (ee : Bool) (rl pl p : Nat) (now : Int)
        (res : EnterResult),
      enter_round round ee rl pl p now = .ok res →
      res.round.is_active = round.is_active) ∧
    (∀ (hashFn : List Char → List Nat) (round : Round) (pe ge : Bool)
        (p : Nat) (now : Int) (guess : List Char) (res : SubmitResult),
      submit_guess hashFn round pe ge p now guess = .ok res →
      (res.round.is_active = true → round.is_active = true)) ∧
    (∀ (gc : GameConfig) (round : Round) (rl mb wa wl fa fl : Nat)
        (lb : List LeaderboardEntry) (res : DistributeResult),
      distribute_pot gc round rl mb wa wl fa fl lb = .ok res →
      res.round.is_active = round.is_active) ∧
    (∀ (round : Round) (wa : Nat) (res : Round),
      mint_reward_nft round wa = .ok res →
      res.is_active = round.is_active) ∧
    (∀ (gc : GameConfig) (round : Round) (rl mb al : Nat) (now : Int)
        (res : CloseResult),
      close_round gc round rl mb al now = .ok res →
      res.round.is_active = false) := by
  refine ⟨?_, ?_, ?_, ?_, ?_, ?_⟩
  · intro gc round rl mb al now res h
    exact (close_round_inv h).2.1
  · intro round ee rl pl p now res h
    obtain ⟨_, _, _, _, _, _, _, _, hres⟩ := enter_round_inv h
    simp [hres]
  · intro hashFn round pe ge p now guess res h hcontra
    exact (submit_guess_inv h).2.2.1
  · intro gc round rl mb wa wl fa fl lb res h
    obtain ⟨_, _, _, _, _, _, _, _, hres, _, _, _, _⟩ := distribute_pot_inv h
    simp [hres]
  · intro round wa res h
    obtain ⟨_, _, _, hres⟩ := mint_reward_nft_inv h
    simp [hres]
  · intro gc round rl mb al now res h
    simp [(close_round_inv h).2.1]

/-- Expected output of the C10 witness run: closing the expired winnerless
roundX refunds its pot of 2000 to the authority. -/
def resX : CloseResult :=
  ⟨⟨2, whS, false, 0, false, 0, false, false, 2, 10, 0, 100, 1000⟩, 1000, 2010, 2000⟩

theorem close_round_frame_no_reopen_witness :
    resX.round.is_active = false ∧
    resX.round = ⟨roundX.id, roundX.word_hash, false, roundX.winner,
      roundX.has_winner, 0, roundX.pot_distributed, roundX.nft_minted,
      roundX.player_count, roundX.max_players, roundX.created_at,
      roundX.expires_at, roundX.entry_fee_lamports⟩ :=
  ⟨close_round_frame_no_reopen.2.2.2.2.2 gcS roundX 3000 500 10 100 resX
      (by decide),
    close_round_frame_no_reopen.1 gcS roundX 3000 500 10 100 resX
      (by decide)⟩

end SolPot
